import Mathlib

set_option maxRecDepth 8000

/-!
Shallow embedding of src/main.py, the news-enrichment pipeline: the retrying
page fetcher (init_soup), the five field extractors (enrich_content,
enrich_title, enrich_date, enrich_media_name, enrich_journalist_name) and the
orchestrator that runs the five column enrichers and merges their outputs.

Modelling conventions.  Strings are ASCII lists of characters; Python regex
operations are embedded by hand with their leftmost-match and backtracking
behaviour (element texts are assumed newline-free where the dot of a regex
would otherwise stop at a newline).  The network is an oracle mapping the
attempt number to a response; the exceptions requests.get raises while
preparing a URL it cannot fetch are deterministic in the URL and modelled
separately from the oracle: a URL with no colon at all has no scheme and
raises MissingSchema, which the enrichers catch, while a URL that carries a
colon but no http or https prefix fails the connection-adapter lookup with
InvalidSchema, which no except clause of the source lists.  The fetcher is
modelled twice: init_soup_full is the faithful total model with this exact
exception split, and init_soup is its restriction to the domain of URLs that
are either http(s) or entirely scheme-less, a declared convention under which
every preparation failure is the caught MissingSchema; table-level theorems
quantifying over arbitrary link lists use the restricted model and hold on
that domain.
-/

/-- Python regex class \s restricted to ASCII, as used by str.split, str.strip
and the \s occurrences in the truncation regexes of src/main.py. -/
def pySpace (c : Char) : Bool :=
  c = ' ' || c = '\t' || c = '\n' || c = '\r' || c = '\x0b' || c = '\x0c'

/-- ASCII letter, the regex class [A-Za-z] of the date-shape regex. -/
def isAsciiAlpha (c : Char) : Bool :=
  ('A' ≤ c && c ≤ 'Z') || ('a' ≤ c && c ≤ 'z')

/-- Boolean test that the first list starts the second, written out so the
development does not depend on library prefix operations. -/
def leadsWith : List Char → List Char → Bool
  | [], _ => true
  | _ :: _, [] => false
  | p :: ps, c :: cs => p == c && leadsWith ps cs

/-- Boolean substring occurrence test (regex search of a literal pattern). -/
def isInfixL (pat : List Char) : List Char → Bool
  | [] => pat.isEmpty
  | c :: cs => leadsWith pat (c :: cs) || isInfixL pat cs

/-- Remove trailing Python whitespace. -/
def rstripWs (cs : List Char) : List Char :=
  ((cs.reverse).dropWhile pySpace).reverse

/-- Python str.strip of a character list. -/
def pyStripL (cs : List Char) : List Char :=
  rstripWs (cs.dropWhile pySpace)

/-- Python str.strip. -/
def pyStrip (s : String) : String :=
  String.mk (pyStripL s.data)

/-- Index of the first hyphen of the list, if one occurs. -/
def firstDashIdx : List Char → Option Nat
  | [] => none
  | c :: cs =>
    if c == '-' then some 0 else (firstDashIdx cs).map (fun n => n + 1)

/-- The substitution re.sub of the pattern matching a hyphen with surrounding
optional whitespace and the rest of the line, by the empty string: everything
from the whitespace run preceding the first hyphen onward is removed, and a
string with no hyphen is unchanged.  Used by enrich_title and enrich_date in
src/main.py lines 70 and 92. -/
def truncate_at_dash_l (cs : List Char) : List Char :=
  match firstDashIdx cs with
  | none => cs
  | some q => rstripWs (cs.take q)

/-- The words of a string under Python str.split with no argument: maximal
runs of non-whitespace characters. -/
def wordsWs (cs : List Char) : List (List Char) :=
  (cs.foldr
    (fun c acc =>
      if pySpace c then [] :: acc
      else
        match acc with
        | [] => [[c]]
        | w :: ws => (c :: w) :: ws)
    []).filter (fun w => !w.isEmpty)

/-- Python join of str.split: collapse whitespace runs to single spaces and
drop leading and trailing whitespace (src/main.py line 69). -/
def collapseL (cs : List Char) : List Char :=
  List.intercalate [' '] (wordsWs cs)

/-- Python str.replace of a newline by a space, a per-character map for the
one-character pattern. -/
def replaceNlL (cs : List Char) : List Char :=
  cs.map (fun c => if c = '\n' then ' ' else c)

/-- The full title transformation of get_title in src/main.py lines 69 and 70:
collapse whitespace, replace newlines, then cut from the first hyphen. -/
def title_transform (t : String) : String :=
  String.mk (truncate_at_dash_l (replaceNlL (collapseL t.data)))

/-- Exactly n consecutive characters satisfying p, returning them and the
rest, the counted quantifier of a regex atom. -/
def takeExact (p : Char → Bool) : Nat → List Char → Option (List Char × List Char)
  | 0, cs => some ([], cs)
  | _ + 1, [] => none
  | n + 1, c :: cs =>
    if p c then (takeExact p n cs).map (fun r => (c :: r.1, r.2)) else none

/-- One or more consecutive characters satisfying p, taken greedily. -/
def takeSome1 (p : Char → Bool) (cs : List Char) : Option (List Char × List Char) :=
  match cs with
  | [] => none
  | c :: cs2 =>
    if p c then some (c :: cs2.takeWhile p, cs2.dropWhile p) else none

/-- A match of the date-shape regex group starting exactly here: two digits,
whitespace, three ASCII letters, whitespace, four digits. -/
def shapeAt (cs : List Char) : Option (List Char) := do
  let d1 ← takeExact Char.isDigit 2 cs
  let w1 ← takeSome1 pySpace d1.2
  let mo ← takeExact isAsciiAlpha 3 w1.2
  let w2 ← takeSome1 pySpace mo.2
  let d2 ← takeExact Char.isDigit 4 w2.2
  return d1.1 ++ w1.1 ++ mo.1 ++ w2.1 ++ d2.1

/-- Leftmost match of the date-shape group, the capture chosen by the lazy
leading part of the regex of src/main.py line 93. -/
def findShape : List Char → Option (List Char)
  | [] => none
  | c :: cs => (shapeAt (c :: cs)).orElse (fun _ => findShape cs)

/-- The re.sub of src/main.py line 93: when a date-shaped substring occurs the
whole string is replaced by the first such capture; when none occurs re.sub
finds no match and returns the string unchanged. -/
def extract_shape (cs : List Char) : List Char :=
  (findShape cs).getD cs

/-- The end-to-end text transformation of get_date on the text of the matched
element (src/main.py lines 91 to 94). -/
def date_result (txt : String) : String :=
  String.mk (extract_shape (truncate_at_dash_l txt.data))

/-- Case-insensitive search of the class regex of src/main.py line 89: the
alternation matches when date, calendar or published occurs as a substring. -/
def class_matches (cls : String) : Bool :=
  let l := cls.data.map Char.toLower
  isInfixL ("date".data) l || isInfixL ("calendar".data) l ||
    isInfixL ("published".data) l

/-- A document element as seen by the date heuristic: its class attribute when
one is set, and its text under get_text with strip. -/
structure PageElem where
  className : Option String
  text : String
deriving DecidableEq

/-- Whether soup.find with the class regex accepts this element. -/
def elemClassMatches (e : PageElem) : Bool :=
  match e.className with
  | some c => class_matches c
  | none => false

/-- A meta tag of the document head: its name and property attributes and its
content attribute. -/
structure MetaTag where
  nameAttr : Option String
  propertyAttr : Option String
  content : Option String
deriving DecidableEq

/-- The parsed document tree returned by BeautifulSoup, reduced to the parts
the five extractors query.  titleTag is none when the document has no title
element (attribute access on it raises), some none when the title element has
no single string, and some (some t) otherwise.  paragraphs holds the text of
every p element in document order under get_text with a space separator and
strip.  elems holds every element in document order with its class attribute
and stripped text.  metas holds the meta tags in document order. -/
structure Soup where
  titleTag : Option (Option String)
  paragraphs : List String
  elems : List PageElem
  metas : List MetaTag
deriving DecidableEq

/-- Exception classes reaching the enricher level: the four of the outer
except clauses of src/main.py (lines 53 to 56 and the identical lists of the
other three), plus InvalidSchema, which requests raises for a URL carrying an
explicit non-http scheme and which no except clause of the source lists (a
host-less http URL raises InvalidURL, equally unlisted, folded into the same
uncaught constructor here). -/
inductive Exn where
  | attributeError
  | missingSchema
  | connectionError
  | sslError
  | invalidSchema
deriving DecidableEq

/-- Transient exception classes caught inside init_soup (src/main.py lines 30
to 34). -/
inductive TransientKind where
  | attributeError
  | chunkedEncodingError
  | connectionError
  | sslError
  | readTimeout
deriving DecidableEq

/-- One network response of the oracle: a parsed page, or a failure of one of
the transient classes. -/
inductive NetResp where
  | success (d : Soup)
  | transient (k : TransientKind)

/-- Whether the URL string starts with an explicit http or https scheme, the
only prefixes the connection adapters of requests accept. -/
def hasHttpScheme (url : String) : Bool :=
  leadsWith ("http://".data) url.data || leadsWith ("https://".data) url.data

/-- The retry loop of init_soup (src/main.py lines 24 to 38) over the listed
attempt numbers, range 3 in the source, on the restricted URL domain where
every URL is either http(s) or entirely scheme-less, so that every
preparation failure is MissingSchema; init_soup_full_loop below is the model
on the full domain.  Returns the result together with the number of
requests.get calls made and the number of one-second sleeps performed.  A
transient failure is caught, logged and followed by a sleep, also on the last
attempt; a URL the adapter cannot fetch raises out of the loop on its first
attempt; exhaustion returns None. -/
def init_soup_loop (net : Nat → NetResp) (page_link : String) :
    List Nat → Except Exn (Option Soup) × Nat × Nat
  | [] => (.ok none, 0, 0)
  | k :: ks =>
    if hasHttpScheme page_link then
      match net k with
      | .success d => (.ok (some d), 1, 0)
      | .transient _ =>
        ((init_soup_loop net page_link ks).1,
         (init_soup_loop net page_link ks).2.1 + 1,
         (init_soup_loop net page_link ks).2.2 + 1)
    else (.error .missingSchema, 1, 0)

/-- init_soup of src/main.py: three attempts, restricted URL domain. -/
def init_soup (net : Nat → NetResp) (page_link : String) :
    Except Exn (Option Soup) × Nat × Nat :=
  init_soup_loop net page_link [0, 1, 2]

/-- The exception requests.get raises while preparing a URL it cannot fetch,
before any network traffic: a URL with a colon but no http prefix skips URL
preparation and fails the connection-adapter lookup with InvalidSchema, while
a URL with no colon at all parses with an empty scheme and raises
MissingSchema. -/
def requests_url_exn (url : String) : Exn :=
  if ':' ∈ url.data then .invalidSchema else .missingSchema

/-- The retry loop of init_soup on the full URL domain: exactly as
init_soup_loop, with the precise exception class for a URL the adapter
cannot fetch.  On http(s) and on colon-free URLs the two loops agree. -/
def init_soup_full_loop (net : Nat → NetResp) (page_link : String) :
    List Nat → Except Exn (Option Soup) × Nat × Nat
  | [] => (.ok none, 0, 0)
  | k :: ks =>
    if hasHttpScheme page_link then
      match net k with
      | .success d => (.ok (some d), 1, 0)
      | .transient _ =>
        ((init_soup_full_loop net page_link ks).1,
         (init_soup_full_loop net page_link ks).2.1 + 1,
         (init_soup_full_loop net page_link ks).2.2 + 1)
    else (.error (requests_url_exn page_link), 1, 0)

/-- init_soup of src/main.py on the full URL domain: three attempts. -/
def init_soup_full (net : Nat → NetResp) (page_link : String) :
    Except Exn (Option Soup) × Nat × Nat :=
  init_soup_full_loop net page_link [0, 1, 2]

/-- The exception classes caught by each enricher around its body. -/
def outerCaught : List Exn :=
  [.attributeError, .missingSchema, .connectionError, .sslError]

/-- The except clause of an enricher: a caught exception becomes the absent
value None, anything else would propagate. -/
def runHandler (r : Except Exn (Option String)) : Except Exn (Option String) :=
  match r with
  | .error e => if outerCaught.contains e then .ok none else .error e
  | .ok v => .ok v

/-- The value of a non-raising computation, absent on an error. -/
def okValue (r : Except Exn (Option String)) : Option String :=
  match r with
  | .ok v => v
  | .error _ => none

/-- Body of get_content (src/main.py lines 45 to 52): join the non-empty
paragraph texts without separators and replace newlines.  Attribute access on
a None soup raises AttributeError. -/
def content_of_soup (d : Soup) : String :=
  String.mk (replaceNlL (String.join (d.paragraphs.filter (fun p => p ≠ ""))).data)

/-- Body of get_title (src/main.py lines 66 to 74): the title string when the
document has one; an empty title is falsy and yields None. -/
def title_of_soup (d : Soup) : Except Exn (Option String) :=
  match d.titleTag with
  | none => .error .attributeError
  | some none => .ok none
  | some (some t) => if t = "" then .ok none else .ok (some (title_transform t))

/-- Body of get_date (src/main.py lines 88 to 96): the first element whose
class matches the regex; its text truncated at the first hyphen, then the
date-shape substitution. -/
def date_of_soup (d : Soup) : Option String :=
  match d.elems.find? elemClassMatches with
  | some e => some (date_result e.text)
  | none => none

/-- The check of one meta tag in get_journalist_name: the tag was found and
its content attribute is truthy; then the stripped content. -/
def meta_content_ok (m : MetaTag) : Option String :=
  match m.content with
  | some c => if c = "" then none else some (pyStrip c)
  | none => none

/-- Body of get_journalist_name (src/main.py lines 118 to 131): the meta
checks in source order, each requiring a found tag with truthy content,
falling through to None. -/
def journalist_of_soup (d : Soup) : Option String :=
  ((d.metas.find? (fun m => m.nameAttr == some "author")).bind
      meta_content_ok).orElse (fun _ =>
    ((d.metas.find? (fun m => m.propertyAttr == some "article:author")).bind
        meta_content_ok).orElse (fun _ =>
      (d.metas.find? (fun m => m.propertyAttr == some "content:author")).bind
        meta_content_ok))

/-- Lift a soup result to the content body, raising AttributeError when the
soup is None (find_all on None). -/
def content_body : Except Exn (Option Soup) → Except Exn (Option String)
  | .error e => .error e
  | .ok none => .error .attributeError
  | .ok (some d) => .ok (some (content_of_soup d))

/-- Title body over the fetch result. -/
def title_body : Except Exn (Option Soup) → Except Exn (Option String)
  | .error e => .error e
  | .ok none => .error .attributeError
  | .ok (some d) => title_of_soup d

/-- Date body over the fetch result. -/
def date_body : Except Exn (Option Soup) → Except Exn (Option String)
  | .error e => .error e
  | .ok none => .error .attributeError
  | .ok (some d) => .ok (date_of_soup d)

/-- Journalist body over the fetch result. -/
def journalist_body : Except Exn (Option Soup) → Except Exn (Option String)
  | .error e => .error e
  | .ok none => .error .attributeError
  | .ok (some d) => .ok (journalist_of_soup d)

/-- get_content applied to one URL, with the attempt and sleep counts of its
fetch. -/
def get_content (net : Nat → NetResp) (link : String) :
    Except Exn (Option String) × Nat × Nat :=
  (runHandler (content_body (init_soup net link).1),
   (init_soup net link).2.1, (init_soup net link).2.2)

/-- get_title applied to one URL. -/
def get_title (net : Nat → NetResp) (link : String) :
    Except Exn (Option String) × Nat × Nat :=
  (runHandler (title_body (init_soup net link).1),
   (init_soup net link).2.1, (init_soup net link).2.2)

/-- get_date applied to one URL. -/
def get_date (net : Nat → NetResp) (link : String) :
    Except Exn (Option String) × Nat × Nat :=
  (runHandler (date_body (init_soup net link).1),
   (init_soup net link).2.1, (init_soup net link).2.2)

/-- get_journalist_name applied to one URL. -/
def get_journalist (net : Nat → NetResp) (link : String) :
    Except Exn (Option String) × Nat × Nat :=
  (runHandler (journalist_body (init_soup net link).1),
   (init_soup net link).2.1, (init_soup net link).2.2)

/-- get_content over the full-domain fetcher: an exception the except clause
does not list passes through the handler and propagates out of the
enricher. -/
def get_content_full (net : Nat → NetResp) (link : String) :
    Except Exn (Option String) × Nat × Nat :=
  (runHandler (content_body (init_soup_full net link).1),
   (init_soup_full net link).2.1, (init_soup_full net link).2.2)

/-- get_title over the full-domain fetcher. -/
def get_title_full (net : Nat → NetResp) (link : String) :
    Except Exn (Option String) × Nat × Nat :=
  (runHandler (title_body (init_soup_full net link).1),
   (init_soup_full net link).2.1, (init_soup_full net link).2.2)

/-- get_date over the full-domain fetcher. -/
def get_date_full (net : Nat → NetResp) (link : String) :
    Except Exn (Option String) × Nat × Nat :=
  (runHandler (date_body (init_soup_full net link).1),
   (init_soup_full net link).2.1, (init_soup_full net link).2.2)

/-- get_journalist_name over the full-domain fetcher. -/
def get_journalist_full (net : Nat → NetResp) (link : String) :
    Except Exn (Option String) × Nat × Nat :=
  (runHandler (journalist_body (init_soup_full net link).1),
   (init_soup_full net link).2.1, (init_soup_full net link).2.2)

/-- The capture attempt of the media-name regex at a fixed start: the maximal
run of non-slash characters, failing when it is empty. -/
def firstSeg (cs : List Char) : Option (List Char) :=
  let cap := cs.takeWhile (fun c => c != '/')
  if cap.isEmpty then none else some cap

/-- re.match of the media-name pattern of src/main.py line 108 and its first
group: an optional https or http prefix, with backtracking to no prefix when
the remainder has no non-slash character, then one or more non-slash
characters. -/
def media_capture_l (cs : List Char) : Option (List Char) :=
  if leadsWith ("https://".data) cs then
    (firstSeg (cs.drop 8)).orElse (fun _ => firstSeg cs)
  else if leadsWith ("http://".data) cs then
    (firstSeg (cs.drop 7)).orElse (fun _ => firstSeg cs)
  else firstSeg cs

/-- The per-row function of enrich_media_name: group 1 of the regex match on
the raw page link, None when the regex does not match.  It makes no network
call. -/
def media_capture (s : String) : Option String :=
  (media_capture_l s.data).map (fun cs => String.mk cs)

/-- One column enricher: progress_apply of the per-row function over the page
links in row order, with the row index as the argument of the oracle.  A
raised exception aborts the column, as an exception raised inside a pandas
apply would. -/
def col_map (g : Nat → String → Except Exn (Option String)) :
    Nat → List String → Except Exn (List (Option String))
  | _, [] => .ok []
  | j, l :: ls =>
    match g j l with
    | .error e => .error e
    | .ok v =>
      match col_map g (j + 1) ls with
      | .error e => .error e
      | .ok vs => .ok (v :: vs)

/-- The values of a column when no row raises. -/
def col_pure (g : Nat → String → Except Exn (Option String)) :
    Nat → List String → List (Option String)
  | _, [] => []
  | j, l :: ls => okValue (g j l) :: col_pure g (j + 1) ls

/-- enrich_content of src/main.py over a whole column of links. -/
def content_col (net : Nat → Nat → NetResp) (links : List String) :
    Except Exn (List (Option String)) :=
  col_map (fun j l => (get_content (net j) l).1) 0 links

/-- enrich_title over a column. -/
def title_col (net : Nat → Nat → NetResp) (links : List String) :
    Except Exn (List (Option String)) :=
  col_map (fun j l => (get_title (net j) l).1) 0 links

/-- enrich_date over a column. -/
def date_col (net : Nat → Nat → NetResp) (links : List String) :
    Except Exn (List (Option String)) :=
  col_map (fun j l => (get_date (net j) l).1) 0 links

/-- enrich_journalist_name over a column. -/
def journalist_col (net : Nat → Nat → NetResp) (links : List String) :
    Except Exn (List (Option String)) :=
  col_map (fun j l => (get_journalist (net j) l).1) 0 links

/-- enrich_media_name over a column: the pure regex capture per row, no
network oracle. -/
def media_col (links : List String) : Except Exn (List (Option String)) :=
  col_map (fun _ l => .ok (media_capture l)) 0 links

/-- One input row: the page_link column plus the remaining pass-through
columns, abstracted as a value of an arbitrary type. -/
structure Row (α : Type) where
  page_link : String
  rest : α

/-- One output row: the input row with the five derived columns appended, as
the five assignments of src/main.py lines 168 to 172 produce. -/
structure EnrichedRow (α : Type) where
  orig : Row α
  content : Option String
  title : Option String
  date : Option String
  media_name : Option String
  journalist_name : Option String

/-- The network environment of one run: an oracle per fetching column, since
each of the four fetching enrichers re-fetches every URL independently. -/
structure NetEnv where
  contentNet : Nat → Nat → NetResp
  titleNet : Nat → Nat → NetResp
  dateNet : Nat → Nat → NetResp
  journalistNet : Nat → Nat → NetResp

/-- Positional merge of the five result columns onto the rows, the pandas
column assignments after all futures complete. -/
def merge_rows {α : Type} :
    List (Row α) → List (Option String) → List (Option String) →
    List (Option String) → List (Option String) → List (Option String) →
    List (EnrichedRow α)
  | r :: rs, c :: cs, t :: ts, d :: ds, m :: ms, j :: js =>
    { orig := r, content := c, title := t, date := d, media_name := m,
      journalist_name := j } :: merge_rows rs cs ts ds ms js
  | _, _, _, _, _, _ => []

/-- The orchestrator of src/main.py lines 159 to 172: the five column
enrichers run as independent tasks over the shared read-only table, each
producing its own result sequence; their results are then merged positionally
as the five new columns.  A task that raised re-raises at its result call and
fails the run. -/
def enrich_table {α : Type} (env : NetEnv) (rows : List (Row α)) :
    Except Exn (List (EnrichedRow α)) :=
  match content_col env.contentNet (rows.map (fun r => r.page_link)),
        title_col env.titleNet (rows.map (fun r => r.page_link)),
        date_col env.dateNet (rows.map (fun r => r.page_link)),
        media_col (rows.map (fun r => r.page_link)),
        journalist_col env.journalistNet (rows.map (fun r => r.page_link)) with
  | .ok cs, .ok ts, .ok ds, .ok ms, .ok js => .ok (merge_rows rows cs ts ds ms js)
  | .error e, _, _, _, _ => .error e
  | _, .error e, _, _, _ => .error e
  | _, _, .error e, _, _ => .error e
  | _, _, _, .error e, _ => .error e
  | _, _, _, _, .error e => .error e

/-- The enriched row produced for input row r at position j, each derived
value computed from the page_link of r alone. -/
def enrich_one {α : Type} (env : NetEnv) (j : Nat) (r : Row α) : EnrichedRow α :=
  { orig := r
    content := okValue ((get_content (env.contentNet j) r.page_link).1)
    title := okValue ((get_title (env.titleNet j) r.page_link).1)
    date := okValue ((get_date (env.dateNet j) r.page_link).1)
    media_name := media_capture r.page_link
    journalist_name := okValue ((get_journalist (env.journalistNet j) r.page_link).1) }

/-- The whole enriched table as a row-wise computation. -/
def enrich_rows {α : Type} (env : NetEnv) : Nat → List (Row α) → List (EnrichedRow α)
  | _, [] => []
  | j, r :: rs => enrich_one env j r :: enrich_rows env (j + 1) rs

/-- Modelled from the spec: the URL Normalizer of section 4.1, a component the
spec describes but src/main.py does not contain.  An explicit scheme is
trusted; otherwise a header probe of the https form is accepted on any status
below 400, else the http form under the same rule; the probe oracle returns
the response status or none on a transport error. -/
def normalize_url_spec (probe : String → Option Nat) (url : String) : Option String :=
  if hasHttpScheme url then some url
  else
    let httpTry : Option String :=
      match probe ("http://" ++ url) with
      | some st => if st < 400 then some ("http://" ++ url) else none
      | none => none
    match probe ("https://" ++ url) with
    | some st => if st < 400 then some ("https://" ++ url) else httpTry
    | none => httpTry

/-- The title pipeline as the claim describes it: the resolved URL from the
normalizer is what the fetch and the extractor then use. -/
def title_via_normalizer (probe : String → Option Nat) (net : Nat → NetResp)
    (url : String) : Option String :=
  match normalize_url_spec probe url with
  | some u => okValue ((get_title net u).1)
  | none => none

/-- The title truncation as the specification words it: cut at the first
space-hyphen-space separator only. -/
def truncAtSepL : List Char → List Char
  | [] => []
  | c :: rest =>
    if leadsWith (" - ".data) (c :: rest) then [] else c :: truncAtSepL rest

/-- The title transformation as the specification words it: collapse
whitespace, then truncate only at a space-delimited hyphen separator. -/
def spec_title_transform (t : String) : String :=
  String.mk (truncAtSepL (collapseL t.data))

/-- A page whose title is a plain word, used as the document behind a working
http URL. -/
def docPlainTitle : Soup := ⟨some (some "T"), [], [], []⟩

/-- The probe oracle of the resolution-fallback scenario: the https form of
the bare host answers 500, the http form answers 200. -/
def probeHttpOnly : String → Option Nat :=
  fun u => if u = "http://news.example" then some 200 else some 500

/-- A page whose title carries an internal hyphen and no space-delimited
separator. -/
def docCovid : Soup := ⟨some (some "Covid-19 Update"), [], [], []⟩

/-- A page with one date-classed element whose text has no date-shaped
substring. -/
def docUpdated : Soup := ⟨none, [], [⟨some "post-date", "Updated today"⟩], []⟩

/-- A page with one date-classed element carrying the date text of the spec
example. -/
def docPub : Soup :=
  ⟨none, [], [⟨some "post-date", "Published: 05 Mar 2023 - Staff Writer"⟩], []⟩

/-- A page with both an author name meta and an article:author property meta,
set to different values. -/
def docBothAuthors : Soup :=
  ⟨none, [], [],
   [⟨some "author", none, some " Alice "⟩, ⟨none, some "article:author", some "Bob"⟩]⟩

/-- A page with no author meta at all. -/
def docNoAuthors : Soup := ⟨none, [], [], []⟩

/-- A page with no author name meta but both an article:author and a
content:author property meta, set to different values. -/
def docArticleOnly : Soup :=
  ⟨none, [], [],
   [⟨none, some "article:author", some "Bob"⟩,
    ⟨none, some "content:author", some "Carol"⟩]⟩

/-- A page whose only author meta is a content:author property meta. -/
def docContentOnly : Soup :=
  ⟨none, [], [], [⟨none, some "content:author", some " Carol "⟩]⟩

/-- The network of the retry scenario: two transient failures then a parsed
page. -/
def netThirdTry : Nat → NetResp :=
  fun k => if 2 ≤ k then .success docPlainTitle else .transient .connectionError

/-- On the restricted domain the fetcher yields a parsed page, a None soup,
or the caught missing-schema exception. -/
theorem init_soup_loop_cases (net : Nat → NetResp) (link : String) :
    ∀ ks : List Nat,
      (init_soup_loop net link ks).1 = .error .missingSchema
      ∨ (init_soup_loop net link ks).1 = .ok none
      ∨ ∃ d, (init_soup_loop net link ks).1 = .ok (some d) := by
  intro ks
  induction ks with
  | nil => exact Or.inr (Or.inl rfl)
  | cons k ks ih =>
    by_cases h : hasHttpScheme link = true
    · cases hn : net k with
      | success d =>
        refine Or.inr (Or.inr ⟨d, ?_⟩)
        simp [init_soup_loop, h, hn]
      | transient tk =>
        have hstep : (init_soup_loop net link (k :: ks)).1
            = (init_soup_loop net link ks).1 := by
          simp [init_soup_loop, h, hn]
        rw [hstep]
        exact ih
    · have h2 : hasHttpScheme link = false := by
        cases hh : hasHttpScheme link
        · rfl
        · exact absurd hh h
      exact Or.inl (by simp [init_soup_loop, h2])

/-- The three-attempt form of the case split. -/
theorem init_soup_cases (net : Nat → NetResp) (link : String) :
    (init_soup net link).1 = .error .missingSchema
    ∨ (init_soup net link).1 = .ok none
    ∨ ∃ d, (init_soup net link).1 = .ok (some d) :=
  init_soup_loop_cases net link [0, 1, 2]

/-- The title body raises only the caught attribute error. -/
theorem title_of_soup_cases (d : Soup) :
    title_of_soup d = .error .attributeError ∨ ∃ v, title_of_soup d = .ok v := by
  rcases ht : d.titleTag with _ | t2
  · exact Or.inl (by simp [title_of_soup, ht])
  · rcases t2 with _ | t
    · exact Or.inr ⟨none, by simp [title_of_soup, ht]⟩
    · by_cases he : t = ""
      · exact Or.inr ⟨none, by simp [title_of_soup, ht, he]⟩
      · exact Or.inr ⟨some (title_transform t), by simp [title_of_soup, ht, he]⟩

/-- The content enricher never raises on the restricted domain. -/
theorem get_content_ok (net : Nat → NetResp) (link : String) :
    ∃ v, (get_content net link).1 = .ok v := by
  rcases init_soup_cases net link with h | h | ⟨d, h⟩
  · exact ⟨none, by
      show runHandler (content_body (init_soup net link).1) = .ok none
      rw [h]
      rfl⟩
  · exact ⟨none, by
      show runHandler (content_body (init_soup net link).1) = .ok none
      rw [h]
      rfl⟩
  · exact ⟨some (content_of_soup d), by
      show runHandler (content_body (init_soup net link).1)
        = .ok (some (content_of_soup d))
      rw [h]
      rfl⟩

/-- The title enricher never raises on the restricted domain. -/
theorem get_title_ok (net : Nat → NetResp) (link : String) :
    ∃ v, (get_title net link).1 = .ok v := by
  rcases init_soup_cases net link with h | h | ⟨d, h⟩
  · exact ⟨none, by
      show runHandler (title_body (init_soup net link).1) = .ok none
      rw [h]
      rfl⟩
  · exact ⟨none, by
      show runHandler (title_body (init_soup net link).1) = .ok none
      rw [h]
      rfl⟩
  · rcases title_of_soup_cases d with h2 | ⟨v, h2⟩
    · refine ⟨none, ?_⟩
      show runHandler (title_body (init_soup net link).1) = .ok none
      rw [h]
      show runHandler (title_of_soup d) = .ok none
      rw [h2]
      rfl
    · refine ⟨v, ?_⟩
      show runHandler (title_body (init_soup net link).1) = .ok v
      rw [h]
      show runHandler (title_of_soup d) = .ok v
      rw [h2]
      rfl

/-- The date enricher never raises on the restricted domain. -/
theorem get_date_ok (net : Nat → NetResp) (link : String) :
    ∃ v, (get_date net link).1 = .ok v := by
  rcases init_soup_cases net link with h | h | ⟨d, h⟩
  · exact ⟨none, by
      show runHandler (date_body (init_soup net link).1) = .ok none
      rw [h]
      rfl⟩
  · exact ⟨none, by
      show runHandler (date_body (init_soup net link).1) = .ok none
      rw [h]
      rfl⟩
  · exact ⟨date_of_soup d, by
      show runHandler (date_body (init_soup net link).1) = .ok (date_of_soup d)
      rw [h]
      rfl⟩

/-- The journalist enricher never raises on the restricted domain. -/
theorem get_journalist_ok (net : Nat → NetResp) (link : String) :
    ∃ v, (get_journalist net link).1 = .ok v := by
  rcases init_soup_cases net link with h | h | ⟨d, h⟩
  · exact ⟨none, by
      show runHandler (journalist_body (init_soup net link).1) = .ok none
      rw [h]
      rfl⟩
  · exact ⟨none, by
      show runHandler (journalist_body (init_soup net link).1) = .ok none
      rw [h]
      rfl⟩
  · exact ⟨journalist_of_soup d, by
      show runHandler (journalist_body (init_soup net link).1)
        = .ok (journalist_of_soup d)
      rw [h]
      rfl⟩

/-- A character of a pattern occurs in every list the pattern starts. -/
theorem mem_of_leadsWith (c : Char) :
    ∀ (ps cs : List Char), leadsWith ps cs = true → c ∈ ps → c ∈ cs := by
  intro ps
  induction ps with
  | nil =>
    intro cs _ hc
    simp at hc
  | cons p ps ih =>
    intro cs h hc
    cases cs with
    | nil => simp [leadsWith] at h
    | cons a t =>
      simp only [leadsWith, Bool.and_eq_true, beq_iff_eq] at h
      rcases List.mem_cons.mp hc with hcp | hc2
      · rw [hcp, h.1]
        exact List.mem_cons_self a t
      · exact List.mem_cons_of_mem a (ih t h.2 hc2)

/-- A URL with no colon cannot carry an http or https scheme. -/
theorem no_colon_no_scheme (link : String) (h : ':' ∉ link.data) :
    hasHttpScheme link = false := by
  cases hh : hasHttpScheme link
  · rfl
  · exfalso
    unfold hasHttpScheme at hh
    rw [Bool.or_eq_true] at hh
    rcases hh with h1 | h1
    · exact h (mem_of_leadsWith ':' ("http://".data) link.data h1 (by decide))
    · exact h (mem_of_leadsWith ':' ("https://".data) link.data h1 (by decide))

/-- A column whose per-row function never raises evaluates to its pure value
list. -/
theorem col_map_eq (g : Nat → String → Except Exn (Option String))
    (hg : ∀ j l, ∃ v, g j l = .ok v) :
    ∀ (links : List String) (j : Nat), col_map g j links = .ok (col_pure g j links) := by
  intro links
  induction links with
  | nil => intro j; rfl
  | cons l ls ih =>
    intro j
    obtain ⟨v, hv⟩ := hg j l
    simp [col_map, col_pure, hv, okValue, ih (j + 1)]

/-- A pure column has one value per row. -/
theorem col_pure_length (g : Nat → String → Except Exn (Option String)) :
    ∀ (links : List String) (j : Nat), (col_pure g j links).length = links.length := by
  intro links
  induction links with
  | nil => intro j; rfl
  | cons l ls ih => intro j; simp [col_pure, ih (j + 1)]

/-- A URL without an http or https scheme raises MissingSchema on the first
attempt: one requests.get call, no sleep. -/
theorem init_soup_noscheme (net : Nat → NetResp) (link : String)
    (h : hasHttpScheme link = false) :
    init_soup net link = (.error .missingSchema, 1, 0) := by
  simp [init_soup, init_soup_loop, h]

/-- A first-attempt success returns the parsed page with one attempt and no
sleep. -/
theorem init_soup_first_success (net : Nat → NetResp) (link : String) (d : Soup)
    (h : hasHttpScheme link = true) (h0 : net 0 = .success d) :
    init_soup net link = (.ok (some d), 1, 0) := by
  simp [init_soup, init_soup_loop, h, h0]

/-- Attempt and sleep counts of the fetch loop are bounded by the number of
listed attempts. -/
theorem init_soup_loop_bound (net : Nat → NetResp) (link : String) :
    ∀ ks : List Nat,
      (init_soup_loop net link ks).2.1 ≤ ks.length ∧
      (init_soup_loop net link ks).2.2 ≤ ks.length := by
  intro ks
  induction ks with
  | nil => exact ⟨Nat.le_refl 0, Nat.le_refl 0⟩
  | cons k ks ih =>
    by_cases h : hasHttpScheme link = true
    · cases hn : net k with
      | success d =>
        simp [init_soup_loop, h, hn]
      | transient tk =>
        simp only [init_soup_loop, h, hn, if_true, List.length_cons]
        exact ⟨Nat.succ_le_succ ih.1, Nat.succ_le_succ ih.2⟩
    · have h2 : hasHttpScheme link = false := by
        cases hh : hasHttpScheme link
        · rfl
        · exact absurd hh h
      simp [init_soup_loop, h2]

/-- Merging the pure columns is the row-wise enrichment. -/
theorem merge_pure {α : Type} (env : NetEnv) :
    ∀ (rows : List (Row α)) (j : Nat),
      merge_rows rows
        (col_pure (fun j l => (get_content (env.contentNet j) l).1) j
          (rows.map (fun r => r.page_link)))
        (col_pure (fun j l => (get_title (env.titleNet j) l).1) j
          (rows.map (fun r => r.page_link)))
        (col_pure (fun j l => (get_date (env.dateNet j) l).1) j
          (rows.map (fun r => r.page_link)))
        (col_pure (fun _ l => .ok (media_capture l)) j
          (rows.map (fun r => r.page_link)))
        (col_pure (fun j l => (get_journalist (env.journalistNet j) l).1) j
          (rows.map (fun r => r.page_link)))
      = enrich_rows env j rows := by
  intro rows
  induction rows with
  | nil => intro j; rfl
  | cons r rs ih =>
    intro j
    simp only [List.map_cons, col_pure, merge_rows, enrich_rows]
    rw [ih (j + 1)]
    rfl

/-- The orchestrator always completes and produces the row-wise enrichment. -/
theorem enrich_table_eq {α : Type} (env : NetEnv) (rows : List (Row α)) :
    enrich_table env rows = .ok (enrich_rows env 0 rows) := by
  have hc := col_map_eq (fun j l => (get_content (env.contentNet j) l).1)
    (fun j l => get_content_ok (env.contentNet j) l) (rows.map (fun r => r.page_link)) 0
  have ht := col_map_eq (fun j l => (get_title (env.titleNet j) l).1)
    (fun j l => get_title_ok (env.titleNet j) l) (rows.map (fun r => r.page_link)) 0
  have hd := col_map_eq (fun j l => (get_date (env.dateNet j) l).1)
    (fun j l => get_date_ok (env.dateNet j) l) (rows.map (fun r => r.page_link)) 0
  have hm := col_map_eq (fun _ l => .ok (media_capture l))
    (fun _ l => ⟨media_capture l, rfl⟩) (rows.map (fun r => r.page_link)) 0
  have hj := col_map_eq (fun j l => (get_journalist (env.journalistNet j) l).1)
    (fun j l => get_journalist_ok (env.journalistNet j) l) (rows.map (fun r => r.page_link)) 0
  unfold enrich_table content_col title_col date_col media_col journalist_col
  rw [hc, ht, hd, hm, hj]
  exact congrArg Except.ok (merge_pure env rows 0)

/-- The enriched rows are one per input row. -/
theorem enrich_rows_length {α : Type} (env : NetEnv) :
    ∀ (rows : List (Row α)) (j : Nat),
      (enrich_rows env j rows).length = rows.length := by
  intro rows
  induction rows with
  | nil => intro j; rfl
  | cons r rs ih => intro j; simp [enrich_rows, ih (j + 1)]

/-- The original row of each enriched row is the input row, unchanged. -/
theorem enrich_rows_map_orig {α : Type} (env : NetEnv) :
    ∀ (rows : List (Row α)) (j : Nat),
      (enrich_rows env j rows).map (fun er => er.orig) = rows := by
  intro rows
  induction rows with
  | nil => intro j; rfl
  | cons r rs ih => intro j; simp [enrich_rows, enrich_one, ih (j + 1)]

/-- The enriched row at each position is the enrichment of the input row at
that position. -/
theorem enrich_rows_get {α : Type} (env : NetEnv) :
    ∀ (rows : List (Row α)) (j k : Nat),
      (enrich_rows env j rows).get? k = (rows.get? k).map (enrich_one env (j + k)) := by
  intro rows
  induction rows with
  | nil => intro j k; simp [enrich_rows]
  | cons r rs ih =>
    intro j k
    cases k with
    | zero => simp [enrich_rows]
    | succ k =>
      have h : j + (k + 1) = j + 1 + k := by omega
      rw [h]
      simpa [enrich_rows] using ih (j + 1) k

/-- The media-name column of the enriched rows is the pure per-row capture. -/
theorem enrich_rows_map_media {α : Type} (env : NetEnv) :
    ∀ (rows : List (Row α)) (j : Nat),
      (enrich_rows env j rows).map (fun er => er.media_name)
        = rows.map (fun r => media_capture r.page_link) := by
  intro rows
  induction rows with
  | nil => intro j; rfl
  | cons r rs ih => intro j; simp [enrich_rows, enrich_one, ih (j + 1)]

/-- A list starts with itself followed by anything. -/
theorem leadsWith_self_append : ∀ (p r : List Char), leadsWith p (p ++ r) = true := by
  intro p r
  induction p with
  | nil => rfl
  | cons c cs ih => simp [leadsWith, ih]

/-- A list starting with a non-empty pattern has the same first character. -/
theorem leadsWith_head (p : Char) (ps cs : List Char)
    (h : leadsWith (p :: ps) cs = true) : cs.head? = some p := by
  cases cs with
  | nil => exact absurd h (by simp [leadsWith])
  | cons c t =>
    simp only [leadsWith, Bool.and_eq_true, beq_iff_eq] at h
    simp [h.1]

/-- A list whose first character is not a slash has a non-empty first
segment. -/
theorem firstSeg_some_of_head (c : Char) (cs : List Char) (h : cs.head? = some c)
    (hc : c ≠ '/') : ∃ v, firstSeg cs = some v := by
  cases cs with
  | nil => simp at h
  | cons a t =>
    simp only [List.head?, Option.some.injEq] at h
    subst h
    have hb : (a != '/') = true := by
      simp [bne_iff_ne]
      exact hc
    refine ⟨a :: t.takeWhile (fun x => x != '/'), ?_⟩
    simp [firstSeg, List.takeWhile_cons, hb]

/-- The first segment is absent exactly on the empty list or a list starting
with a slash. -/
theorem firstSeg_none_iff (cs : List Char) :
    firstSeg cs = none ↔ cs = [] ∨ cs.head? = some '/' := by
  cases cs with
  | nil => simp [firstSeg]
  | cons c t =>
    by_cases h : c = '/'
    · subst h
      simp [firstSeg, List.takeWhile_cons]
    · have hb : (c != '/') = true := by
        simp [bne_iff_ne]
        exact h
      simp [firstSeg, List.takeWhile_cons, hb, h]

/-- The media-name regex fails to match exactly on the empty string or a
string starting with a slash. -/
theorem media_capture_l_none_iff (cs : List Char) :
    media_capture_l cs = none ↔ cs = [] ∨ cs.head? = some '/' := by
  by_cases h1 : leadsWith ("https://".data) cs = true
  · have hh : cs.head? = some 'h' := leadsWith_head 'h' _ cs h1
    obtain ⟨v, hv⟩ := firstSeg_some_of_head 'h' cs hh (by decide)
    have hL : ¬ media_capture_l cs = none := by
      unfold media_capture_l
      rw [if_pos h1]
      cases hx : firstSeg (cs.drop 8) with
      | some w => simp [Option.orElse]
      | none => simp [Option.orElse, hv]
    have hR : ¬ (cs = [] ∨ cs.head? = some '/') := by
      rintro (rfl | hsl)
      · simp at hh
      · rw [hh] at hsl
        exact absurd (Option.some.inj hsl) (by decide)
    exact iff_of_false hL hR
  · by_cases h2 : leadsWith ("http://".data) cs = true
    · have hh : cs.head? = some 'h' := leadsWith_head 'h' _ cs h2
      obtain ⟨v, hv⟩ := firstSeg_some_of_head 'h' cs hh (by decide)
      have hL : ¬ media_capture_l cs = none := by
        unfold media_capture_l
        rw [if_neg h1, if_pos h2]
        cases hx : firstSeg (cs.drop 7) with
        | some w => simp [Option.orElse]
        | none => simp [Option.orElse, hv]
      have hR : ¬ (cs = [] ∨ cs.head? = some '/') := by
        rintro (rfl | hsl)
        · simp at hh
        · rw [hh] at hsl
          exact absurd (Option.some.inj hsl) (by decide)
      exact iff_of_false hL hR
    · unfold media_capture_l
      rw [if_neg h1, if_neg h2]
      exact firstSeg_none_iff cs

/-- A string with an empty character list is the empty string. -/
theorem string_data_nil_iff (s : String) : s.data = [] ↔ s = "" := by
  constructor
  · intro h
    cases s with
    | mk d =>
      simp only [String.data] at h
      subst h
      rfl
  · intro h
    subst h
    rfl

/-- Taking non-stop characters over a stop-free list followed by the stop
character yields the list. -/
theorem takeWhile_append_stop (stop : Char) :
    ∀ (a b : List Char), (∀ c ∈ a, c ≠ stop) →
      (a ++ stop :: b).takeWhile (fun c => c != stop) = a := by
  intro a
  induction a with
  | nil =>
    intro b _
    simp [List.takeWhile_cons]
  | cons x xs ih =>
    intro b h
    have hx : (x != stop) = true := by
      simp [bne_iff_ne]
      exact h x (by simp)
    simp only [List.cons_append, List.takeWhile_cons, hx, if_true]
    rw [ih b (fun c hc => h c (by simp [hc]))]

/-- The first hyphen of a hyphen-free list followed by a hyphen sits right
after the list. -/
theorem firstDashIdx_append :
    ∀ (a b : List Char), (∀ c ∈ a, c ≠ '-') →
      firstDashIdx (a ++ '-' :: b) = some a.length := by
  intro a
  induction a with
  | nil =>
    intro b _
    simp [firstDashIdx]
  | cons x xs ih =>
    intro b h
    have hx : (x == '-') = false := by
      simp [beq_eq_false_iff_ne]
      exact h x (by simp)
    have ihb := ih b (fun c hc => h c (by simp [hc]))
    simp [firstDashIdx, hx, ihb]

/-- Taking the length of the left part of an append returns the left part. -/
theorem take_len_append : ∀ (a b : List Char), (a ++ b).take a.length = a := by
  intro a
  induction a with
  | nil => intro b; rfl
  | cons x xs ih => intro b; simp [List.take, ih b]

/-- Claim C1: for every input table the enriched output has the same row
count, the original columns of every row are unchanged, and the five derived
values at position j are computed from the page_link of input row j alone,
the positional alignment the concurrent column tasks preserve by each mapping
the rows in order into its own buffer. -/
theorem C1_row_alignment (α : Type) (env : NetEnv) (rows : List (Row α)) :
    ∃ out, enrich_table env rows = .ok out
      ∧ out.length = rows.length
      ∧ out.map (fun er => er.orig) = rows
      ∧ ∀ j : Nat, out.get? j = (rows.get? j).map (enrich_one env j) := by
  refine ⟨enrich_rows env 0 rows, enrich_table_eq env rows,
    enrich_rows_length env rows 0, enrich_rows_map_orig env rows 0, ?_⟩
  intro j
  simpa using enrich_rows_get env rows 0 j

/-- Claim C5: for every column of rows and every network behaviour, each
column enricher completes with a value, never an exception: every per-row
failure is converted to an absent value and one result per row is produced,
so processing continues past failing rows. -/
theorem C5_failures_absent (netC netT netD netJ : Nat → Nat → NetResp)
    (links : List String) :
    (∃ vs, content_col netC links = .ok vs ∧ vs.length = links.length)
  ∧ (∃ vs, title_col netT links = .ok vs ∧ vs.length = links.length)
  ∧ (∃ vs, date_col netD links = .ok vs ∧ vs.length = links.length)
  ∧ (∃ vs, journalist_col netJ links = .ok vs ∧ vs.length = links.length)
  ∧ (∃ vs, media_col links = .ok vs ∧ vs.length = links.length) :=
  ⟨⟨_, col_map_eq _ (fun j l => get_content_ok (netC j) l) links 0,
    col_pure_length _ links 0⟩,
   ⟨_, col_map_eq _ (fun j l => get_title_ok (netT j) l) links 0,
    col_pure_length _ links 0⟩,
   ⟨_, col_map_eq _ (fun j l => get_date_ok (netD j) l) links 0,
    col_pure_length _ links 0⟩,
   ⟨_, col_map_eq _ (fun j l => get_journalist_ok (netJ j) l) links 0,
    col_pure_length _ links 0⟩,
   ⟨_, col_map_eq _ (fun _ l => ⟨media_capture l, rfl⟩) links 0,
    col_pure_length _ links 0⟩⟩

/-- Claim C10: the media-name extractor is a pure function of the raw URL
string, independent of any network behaviour, returning the first capture of
the regex with an optional scheme prefix and a non-empty non-slash run, and
it is absent exactly on the empty string or a string starting with a
slash. -/
theorem C10_media_pure_regex :
    (∀ (α : Type) (env env2 : NetEnv) (rows : List (Row α)),
       ∃ out out2, enrich_table env rows = .ok out
         ∧ enrich_table env2 rows = .ok out2
         ∧ out.map (fun er => er.media_name)
             = rows.map (fun r => media_capture r.page_link)
         ∧ out2.map (fun er => er.media_name)
             = rows.map (fun r => media_capture r.page_link))
  ∧ (∀ s : String, media_capture s = none ↔ s = "" ∨ s.data.head? = some '/') := by
  constructor
  · intro α env env2 rows
    exact ⟨enrich_rows env 0 rows, enrich_rows env2 0 rows,
      enrich_table_eq env rows, enrich_table_eq env2 rows,
      enrich_rows_map_media env rows 0, enrich_rows_map_media env2 rows 0⟩
  · intro s
    unfold media_capture
    rw [Option.map_eq_none', media_capture_l_none_iff, string_data_nil_iff]

/-- Claim C4 as amended: the fetcher makes at most 3 attempts, with a one
second sleep after every failed attempt, including the last, so up to 3
sleeps on exhaustion rather than at most 2; a fetch failing twice transiently
and succeeding on the third attempt returns the parsed document with exactly
3 attempts and 2 sleeps. -/
theorem C4_retry_amended :
    (∀ (net : Nat → NetResp) (link : String) (d : Soup) (k1 k2 : TransientKind),
       hasHttpScheme link = true →
       net 0 = .transient k1 → net 1 = .transient k2 → net 2 = .success d →
       init_soup net link = (.ok (some d), 3, 2))
  ∧ (∀ (net : Nat → NetResp) (link : String),
       (init_soup net link).2.1 ≤ 3 ∧ (init_soup net link).2.2 ≤ 3) := by
  constructor
  · intro net link d k1 k2 hs h0 h1 h2
    simp [init_soup, init_soup_loop, hs, h0, h1, h2]
  · intro net link
    exact init_soup_loop_bound net link [0, 1, 2]

/-- Witness for C4: two connection errors then a parsed page give the page
with 3 attempts and 2 sleeps. -/
theorem C4_retry_amended_witness :
    init_soup netThirdTry "http://x" = (.ok (some docPlainTitle), 3, 2) :=
  C4_retry_amended.1 netThirdTry "http://x" docPlainTitle
    .connectionError .connectionError rfl rfl rfl rfl

/-- Counterexample to C4 as stated: a fetch whose three attempts all fail
transiently performs 3 sleeps, not at most 2. -/
theorem C4_retry_cex :
    init_soup (fun _ => NetResp.transient .connectionError) "http://x"
      = (.ok none, 3, 3)
    ∧ ¬ ((3 : Nat) ≤ 2) := ⟨rfl, by decide⟩

/-- Claim C8 as amended: neither non-transient preparation failure enters the
retry loop, both fail the single first attempt with no sleep; but only the
missing-schema class of a URL with no scheme at all becomes an immediate
absent value, while a malformed URL carrying an explicit non-http scheme
raises the invalid-schema class that no except clause lists, so the error
propagates out of every enricher instead of becoming absent. -/
theorem C8_nontransient_amended :
    (∀ (net : Nat → NetResp) (link : String), ':' ∉ link.data →
       get_content_full net link = (.ok none, 1, 0)
       ∧ get_title_full net link = (.ok none, 1, 0)
       ∧ get_date_full net link = (.ok none, 1, 0)
       ∧ get_journalist_full net link = (.ok none, 1, 0))
  ∧ (∀ (net : Nat → NetResp) (link : String),
       ':' ∈ link.data → hasHttpScheme link = false →
       get_content_full net link = (.error .invalidSchema, 1, 0)
       ∧ get_title_full net link = (.error .invalidSchema, 1, 0)
       ∧ get_date_full net link = (.error .invalidSchema, 1, 0)
       ∧ get_journalist_full net link = (.error .invalidSchema, 1, 0)) := by
  constructor
  · intro net link h
    have hs : hasHttpScheme link = false := no_colon_no_scheme link h
    have hif : init_soup_full net link = (.error .missingSchema, 1, 0) := by
      simp [init_soup_full, init_soup_full_loop, hs, requests_url_exn, h]
    unfold get_content_full get_title_full get_date_full get_journalist_full
    rw [hif]
    exact ⟨rfl, rfl, rfl, rfl⟩
  · intro net link h hs
    have hif : init_soup_full net link = (.error .invalidSchema, 1, 0) := by
      simp [init_soup_full, init_soup_full_loop, hs, requests_url_exn, h]
    unfold get_content_full get_title_full get_date_full get_journalist_full
    rw [hif]
    exact ⟨rfl, rfl, rfl, rfl⟩

/-- Witness for C8: a scheme-less host yields immediate absent, while a
colon-bearing non-http URL yields the uncaught invalid-schema error. -/
theorem C8_nontransient_amended_witness :
    get_title_full (fun _ => NetResp.success docPlainTitle) "news.example"
      = (.ok none, 1, 0)
    ∧ get_content_full (fun _ => NetResp.success docPlainTitle) "localhost:8080/x"
      = (.error .invalidSchema, 1, 0) := by
  constructor
  · exact (C8_nontransient_amended.1 (fun _ => NetResp.success docPlainTitle)
      "news.example" (by decide)).2.1
  · exact (C8_nontransient_amended.2 (fun _ => NetResp.success docPlainTitle)
      "localhost:8080/x" (by decide) rfl).1

/-- Counterexample to C8 as stated: a malformed URL with an explicit non-http
scheme does not produce an absent value; the invalid-schema error passes the
except clause uncaught and propagates out of the enricher. -/
theorem C8_nontransient_cex :
    (get_title_full (fun _ => NetResp.transient .connectionError)
        "htp:/broken").1 = .error .invalidSchema
    ∧ (Except.error Exn.invalidSchema : Except Exn (Option String))
        ≠ .ok none := by
  refine ⟨rfl, ?_⟩
  simp

/-- Claim C9: the journalist extractor checks the author name meta, then the
article:author property meta, then the content:author property meta, in that
fixed order, returning the stripped content of the first check that finds a
tag with a value: a page carrying both an author name meta and an
article:author meta yields the name value; when the name check misses, an
article:author hit wins regardless of any content:author meta; when both
earlier checks miss, a content:author hit is returned; a page matching none
of the three yields absent. -/
theorem C9_journalist_first_match :
    (∀ (net : Nat → NetResp) (link : String) (d : Soup) (m : MetaTag) (a : String),
       hasHttpScheme link = true → net 0 = .success d →
       d.metas.find? (fun mt => mt.nameAttr == some "author") = some m →
       m.content = some a → a ≠ "" →
       (get_journalist net link).1 = .ok (some (pyStrip a)))
  ∧ (∀ (net : Nat → NetResp) (link : String) (d : Soup) (m : MetaTag) (a : String),
       hasHttpScheme link = true → net 0 = .success d →
       (d.metas.find? (fun mt => mt.nameAttr == some "author")).bind
         meta_content_ok = none →
       d.metas.find? (fun mt => mt.propertyAttr == some "article:author") = some m →
       m.content = some a → a ≠ "" →
       (get_journalist net link).1 = .ok (some (pyStrip a)))
  ∧ (∀ (net : Nat → NetResp) (link : String) (d : Soup) (m : MetaTag) (a : String),
       hasHttpScheme link = true → net 0 = .success d →
       (d.metas.find? (fun mt => mt.nameAttr == some "author")).bind
         meta_content_ok = none →
       (d.metas.find? (fun mt => mt.propertyAttr == some "article:author")).bind
         meta_content_ok = none →
       d.metas.find? (fun mt => mt.propertyAttr == some "content:author") = some m →
       m.content = some a → a ≠ "" →
       (get_journalist net link).1 = .ok (some (pyStrip a)))
  ∧ (∀ (net : Nat → NetResp) (link : String) (d : Soup),
       hasHttpScheme link = true → net 0 = .success d →
       d.metas.find? (fun mt => mt.nameAttr == some "author") = none →
       d.metas.find? (fun mt => mt.propertyAttr == some "article:author") = none →
       d.metas.find? (fun mt => mt.propertyAttr == some "content:author") = none →
       (get_journalist net link).1 = .ok none) := by
  refine ⟨?_, ?_, ?_, ?_⟩
  · intro net link d m a hs h0 hf hc ha
    have hi := init_soup_first_success net link d hs h0
    simp [get_journalist, hi, journalist_body, journalist_of_soup, hf, hc,
      meta_content_ok, ha, Option.orElse, runHandler]
  · intro net link d m a hs h0 h1 hf hc ha
    have hi := init_soup_first_success net link d hs h0
    have hj : journalist_of_soup d = some (pyStrip a) := by
      unfold journalist_of_soup
      rw [h1, hf]
      simp [Option.orElse, meta_content_ok, hc, ha]
    show runHandler (journalist_body (init_soup net link).1)
      = .ok (some (pyStrip a))
    rw [hi]
    show runHandler (.ok (journalist_of_soup d)) = .ok (some (pyStrip a))
    rw [hj]
    rfl
  · intro net link d m a hs h0 h1 h2 hf hc ha
    have hi := init_soup_first_success net link d hs h0
    have hj : journalist_of_soup d = some (pyStrip a) := by
      unfold journalist_of_soup
      rw [h1, h2, hf]
      simp [Option.orElse, meta_content_ok, hc, ha]
    show runHandler (journalist_body (init_soup net link).1)
      = .ok (some (pyStrip a))
    rw [hi]
    show runHandler (.ok (journalist_of_soup d)) = .ok (some (pyStrip a))
    rw [hj]
    rfl
  · intro net link d hs h0 h1 h2 h3
    have hi := init_soup_first_success net link d hs h0
    simp [get_journalist, hi, journalist_body, journalist_of_soup, h1, h2, h3,
      Option.orElse, runHandler]

/-- Witness for C9, one page per tier: author Alice beats article:author Bob;
with no name meta, article:author Bob beats content:author Carol; a lone
content:author Carol is returned stripped; no author metas yield absent. -/
theorem C9_journalist_first_match_witness :
    (get_journalist (fun _ => NetResp.success docBothAuthors) "http://x").1
      = .ok (some "Alice")
    ∧ (get_journalist (fun _ => NetResp.success docArticleOnly) "http://x").1
      = .ok (some "Bob")
    ∧ (get_journalist (fun _ => NetResp.success docContentOnly) "http://x").1
      = .ok (some "Carol")
    ∧ (get_journalist (fun _ => NetResp.success docNoAuthors) "http://y").1
      = .ok none := by
  refine ⟨?_, ?_, ?_, ?_⟩
  · exact C9_journalist_first_match.1 (fun _ => NetResp.success docBothAuthors)
      "http://x" docBothAuthors ⟨some "author", none, some " Alice "⟩ " Alice "
      rfl rfl rfl rfl (by decide)
  · exact C9_journalist_first_match.2.1 (fun _ => NetResp.success docArticleOnly)
      "http://x" docArticleOnly ⟨none, some "article:author", some "Bob"⟩ "Bob"
      rfl rfl rfl rfl rfl (by decide)
  · exact C9_journalist_first_match.2.2.1 (fun _ => NetResp.success docContentOnly)
      "http://x" docContentOnly ⟨none, some "content:author", some " Carol "⟩
      " Carol " rfl rfl rfl rfl rfl rfl (by decide)
  · exact C9_journalist_first_match.2.2.2 (fun _ => NetResp.success docNoAuthors)
      "http://y" docNoAuthors rfl rfl rfl rfl rfl

/-- Claim C2 as amended: the code performs no scheme probing at all; every
URL is handed verbatim to the fetcher, and a URL carrying no scheme at all,
one without any colon that URL parsing could read as a scheme delimiter,
raises the missing-schema error on its first fetch attempt, one attempt and
no sleep, which the enricher converts to an absent value.  Both the
restricted and the full fetch model agree on this region. -/
theorem C2_no_probe_amended (net : Nat → NetResp) (link : String)
    (h : ':' ∉ link.data) :
    (get_title net link).1 = .ok none ∧ (get_title net link).2 = (1, 0)
    ∧ get_title_full net link = (.ok none, 1, 0) := by
  have hs : hasHttpScheme link = false := no_colon_no_scheme link h
  have hi := init_soup_noscheme net link hs
  have hif : init_soup_full net link = (.error .missingSchema, 1, 0) := by
    simp [init_soup_full, init_soup_full_loop, hs, requests_url_exn, h]
  unfold get_title get_title_full
  rw [hi, hif]
  exact ⟨rfl, rfl, rfl⟩

/-- Witness for C2: the bare host of the spec example yields absent even when
the network would serve every attempt. -/
theorem C2_no_probe_amended_witness :
    (get_title (fun _ => NetResp.success docPlainTitle) "news.example").1
      = .ok none :=
  (C2_no_probe_amended (fun _ => NetResp.success docPlainTitle)
    "news.example" (by decide)).1

/-- Counterexample to C2 as stated: with a network where the https probe of
the bare host answers 500 and the http probe answers 200, the claimed
probe-then-fetch pipeline would resolve to the http form and extract the
title, but the code fetches the bare string and yields absent. -/
theorem C2_probe_cex :
    okValue ((get_title (fun _ => NetResp.success docPlainTitle)
        "news.example").1) = none
    ∧ title_via_normalizer probeHttpOnly
        (fun _ => NetResp.success docPlainTitle) "news.example" = some "T"
    ∧ (none : Option String) ≠ some "T" := ⟨rfl, rfl, by decide⟩

/-- Claim C3 as amended: the media-name extractor applies the optional-scheme
regex to the raw URL string and returns the whole authority-like segment,
retaining any leading www. prefix; the spec example URL yields
www.example.com, not example.com. -/
theorem C3_media_name_amended :
    (∀ host path : List Char, host ≠ [] → (∀ c ∈ host, c ≠ '/') →
       media_capture_l ("https://".data ++ (host ++ '/' :: path)) = some host)
  ∧ media_capture "https://www.example.com/a/b" = some "www.example.com" := by
  constructor
  · intro host path hne hall
    have h1 : leadsWith ("https://".data)
        ("https://".data ++ (host ++ '/' :: path)) = true :=
      leadsWith_self_append _ _
    unfold media_capture_l
    rw [if_pos h1]
    have hd : ("https://".data ++ (host ++ '/' :: path)).drop 8
        = host ++ '/' :: path := rfl
    rw [hd]
    have hseg : firstSeg (host ++ '/' :: path) = some host := by
      unfold firstSeg
      rw [takeWhile_append_stop '/' host path hall]
      cases host with
      | nil => exact absurd rfl hne
      | cons c t => rfl
    rw [hseg]
    rfl
  · rfl

/-- Witness for C3 at the spec example host. -/
theorem C3_media_name_amended_witness :
    media_capture_l ("https://".data
        ++ ("www.example.com".data ++ '/' :: "a/b".data))
      = some ("www.example.com".data) :=
  C3_media_name_amended.1 ("www.example.com".data) ("a/b".data)
    (by decide) (by decide)

/-- Counterexample to C3 as stated: the extractor does not strip the leading
www. prefix, so the spec example URL yields www.example.com rather than
example.com. -/
theorem C3_media_name_cex :
    media_capture "https://www.example.com/a/b" = some "www.example.com"
    ∧ some "www.example.com" ≠ some "example.com" := ⟨rfl, by decide⟩

/-- Claim C6 as amended: the first element whose class contains date,
calendar or published case-insensitively is taken and its stripped text is
truncated at the first hyphen; when a two-digit-day month-abbreviation
four-digit-year substring occurs the first one is returned, but when none
occurs the truncated text itself is returned rather than absent; absent
arises only when no element class matches. -/
theorem C6_date_amended :
    (∀ d : Soup, d.elems.find? elemClassMatches = none → date_of_soup d = none)
  ∧ (∀ (d : Soup) (e : PageElem), d.elems.find? elemClassMatches = some e →
       date_of_soup d = some (date_result e.text))
  ∧ (get_date (fun _ => NetResp.success docPub) "http://x").1
      = .ok (some "05 Mar 2023") := by
  refine ⟨?_, ?_, rfl⟩
  · intro d h
    simp [date_of_soup, h]
  · intro d e h
    simp [date_of_soup, h]

/-- Witness for C6: the matched no-date element returns its own text, and a
document with no matching class returns absent. -/
theorem C6_date_amended_witness :
    date_of_soup docUpdated = some "Updated today"
    ∧ date_of_soup docNoAuthors = none := by
  constructor
  · exact C6_date_amended.2.1 docUpdated
      ⟨some "post-date", "Updated today"⟩ rfl
  · exact C6_date_amended.1 docNoAuthors rfl

/-- Counterexample to C6 as stated: an element with a matching class whose
text holds no date-shaped substring yields that text, not absent. -/
theorem C6_date_cex :
    (get_date (fun _ => NetResp.success docUpdated) "http://x").1
      = .ok (some "Updated today")
    ∧ findShape ("Updated today".data) = none
    ∧ (Except.ok (some "Updated today") : Except Exn (Option String))
        ≠ .ok none := by
  refine ⟨rfl, rfl, ?_⟩
  simp

/-- Claim C7 as amended: the title is whitespace-collapsed and then truncated
from the first hyphen together with its surrounding whitespace, whether or
not the hyphen is space-delimited; the spec example still yields Breaking
News. -/
theorem C7_title_amended :
    (∀ (net : Nat → NetResp) (link : String) (d : Soup) (t : String),
       hasHttpScheme link = true → net 0 = .success d →
       d.titleTag = some (some t) → t ≠ "" →
       (get_title net link).1 = .ok (some (title_transform t)))
  ∧ title_transform "Breaking News - Example Times" = "Breaking News"
  ∧ (∀ a b : List Char, (∀ c ∈ a, c ≠ '-') →
       truncate_at_dash_l (a ++ '-' :: b) = rstripWs a) := by
  refine ⟨?_, rfl, ?_⟩
  · intro net link d t hs h0 ht hne
    have hi := init_soup_first_success net link d hs h0
    simp [get_title, hi, title_body, title_of_soup, ht, hne, runHandler]
  · intro a b h
    unfold truncate_at_dash_l
    rw [firstDashIdx_append a b h]
    show rstripWs ((a ++ '-' :: b).take a.length) = rstripWs a
    rw [take_len_append a ('-' :: b)]

/-- Witness for C7: a working fetch of a one-word title yields it, and the
truncation cuts a hyphen-free prefix before an appended hyphen. -/
theorem C7_title_amended_witness :
    (get_title (fun _ => NetResp.success docPlainTitle) "http://x").1
      = .ok (some "T")
    ∧ truncate_at_dash_l ("ab".data ++ '-' :: "cd".data) = rstripWs ("ab".data) := by
  constructor
  · exact C7_title_amended.1 (fun _ => NetResp.success docPlainTitle) "http://x"
      docPlainTitle "T" rfl rfl rfl (by decide)
  · exact C7_title_amended.2.2 ("ab".data) ("cd".data) (by decide)

/-- Counterexample to C7 as stated: a title whose only hyphen is internal and
not space-delimited is still truncated there, where the claimed
space-delimited-only truncation would leave it unchanged. -/
theorem C7_title_cex :
    (get_title (fun _ => NetResp.success docCovid) "http://x").1
      = .ok (some "Covid")
    ∧ spec_title_transform "Covid-19 Update" = "Covid-19 Update"
    ∧ ("Covid" : String) ≠ "Covid-19 Update" := ⟨rfl, rfl, by decide⟩
